import Mathlib

/-!
Shallow embedding of the NearbyTix ticket-lifecycle core
(`app/models/ticket.py`, `app/models/event.py`, `app/services/ticket_service.py`,
`app/repositories/ticket_repository.py`, `app/tasks/ticket_tasks.py`,
`app/api/tickets.py`) together with proofs about its inventory and
state-machine invariants.

Conventions of the embedding:
* Timestamps are integers (`Int`); the Python comparison `now > expires_at`
  becomes `expires_at < now`.
* Identifiers (UUIDs) are `Nat`.
* The database is a record of lists; a SQL `SELECT ... WHERE id = k` is
  `findBy`, a keyed `UPDATE` of the row(s) with a given id is `updBy`.
* A Python function that raises inside the transaction (which triggers a
  rollback before any commit) is embedded as returning an error value and the
  unchanged database.
-/

namespace NearbyTix

/-- `app/models/ticket.py` `TicketStatus`: enum with values
`reserved`, `paid`, `expired`. -/
inductive TicketStatus where
  | reserved
  | paid
  | expired
deriving DecidableEq, Repr

/-- `app/models/ticket.py` `Ticket`: the columns of the tickets table that the
lifecycle core reads or writes. -/
structure Ticket where
  id : Nat
  user_id : Nat
  event_id : Nat
  status : TicketStatus
  expires_at : Option Int
  paid_at : Option Int
deriving DecidableEq, Repr

/-- `app/models/event.py` `Event`: the inventory columns of the events table. -/
structure Event where
  id : Nat
  total_tickets : Int
  tickets_sold : Int
deriving DecidableEq, Repr

/-- The durable store: events table, tickets table, and the set of existing
user ids (the only fact about users the ticket core consults). -/
structure DB where
  events : List Event
  tickets : List Ticket
  users : List Nat
deriving DecidableEq, Repr

/-- `SELECT * FROM t WHERE key = k` returning at most one row
(`scalar_one_or_none`). -/
def findBy {α : Type} (key : α → Nat) (k : Nat) (l : List α) : Option α :=
  l.find? (fun x => key x == k)

/-- Keyed row update: apply `f` to the row(s) whose key is `k`. -/
def updBy {α : Type} (key : α → Nat) (k : Nat) (f : α → α) (l : List α) : List α :=
  l.map (fun x => if key x = k then f x else x)

def findEvent (db : DB) (eid : Nat) : Option Event :=
  findBy Event.id eid db.events

def findTicket (db : DB) (tid : Nat) : Option Ticket :=
  findBy Ticket.id tid db.tickets

/-- `app/models/ticket.py` `Ticket.is_expired`: `False` unless the ticket is
`RESERVED` with a non-null `expires_at`, in which case it is
`datetime.now() > expires_at`. -/
def isExpired (t : Ticket) (now : Int) : Bool :=
  if t.status ≠ TicketStatus.reserved ∨ t.expires_at = none then false
  else
    match t.expires_at with
    | some e => decide (e < now)
    | none => false

/-- `app/config.py` `Settings.TICKET_EXPIRATION_TIME` (seconds, default 120). -/
def TICKET_EXPIRATION_TIME : Int := 120

inductive ReserveError where
  | eventNotFound
  | userNotFound
  | soldOut
deriving DecidableEq, Repr

/-- `app/services/ticket_service.py` `TicketService.reserve_ticket`:
lock and fetch the event row; fail if the event is missing, the user is
missing, or `tickets_sold >= total_tickets`; otherwise create a `reserved`
ticket expiring at `now + TICKET_EXPIRATION_TIME`, increment the event's
`tickets_sold`, and commit both writes as one unit.  `new_ticket_id` stands
for the UUID generated for the inserted row. -/
def reserve_ticket (db : DB) (now : Int) (user_id event_id new_ticket_id : Nat) :
    Except ReserveError (DB × Ticket) :=
  match findEvent db event_id with
  | none => Except.error ReserveError.eventNotFound
  | some event =>
    if user_id ∈ db.users then
      if event.tickets_sold ≥ event.total_tickets then
        Except.error ReserveError.soldOut
      else
        let ticket : Ticket :=
          { id := new_ticket_id
            user_id := user_id
            event_id := event_id
            status := TicketStatus.reserved
            expires_at := some (now + TICKET_EXPIRATION_TIME)
            paid_at := none }
        let events' :=
          updBy Event.id event_id (fun e => { e with tickets_sold := e.tickets_sold + 1 }) db.events
        Except.ok ({ db with events := events', tickets := ticket :: db.tickets }, ticket)
    else
      Except.error ReserveError.userNotFound

inductive PayError where
  | ticketNotFound
  | invalidTransition
  | expired
deriving DecidableEq, Repr

/-- `app/repositories/ticket_repository.py` `TicketRepository.update_status`:
set the status of the row with the given id, and set `paid_at` only when a
value is supplied. -/
def update_status (tickets : List Ticket) (tid : Nat) (new_status : TicketStatus)
    (paid_at : Option Int) : List Ticket :=
  updBy Ticket.id tid
    (fun t =>
      { t with
        status := new_status
        paid_at := match paid_at with | some p => some p | none => t.paid_at })
    tickets

/-- `app/services/ticket_service.py` `TicketService.mark_ticket_paid`:
lock and fetch the ticket; fail `ticketNotFound` if absent,
`invalidTransition` if its status is not `reserved`, `expired` if
`Ticket.is_expired` holds; otherwise set status `paid` with `paid_at = now`
and commit.  An error return models the raised exception: the transaction is
rolled back and the store is unchanged. -/
def mark_ticket_paid (db : DB) (now : Int) (ticket_id : Nat) : Except PayError DB :=
  match findTicket db ticket_id with
  | none => Except.error PayError.ticketNotFound
  | some ticket =>
    if ticket.status ≠ TicketStatus.reserved then
      Except.error PayError.invalidTransition
    else if isExpired ticket now then
      Except.error PayError.expired
    else
      Except.ok { db with tickets := update_status db.tickets ticket_id TicketStatus.paid (some now) }

/-- `app/api/tickets.py` `pay_for_ticket`: the HTTP layer of payment.  The
endpoint receives the ticket id and an unused payment body; it declares no
authentication dependency, never learns who the caller is, and delegates
directly to `TicketService.mark_ticket_paid`.  The `caller_user_id` argument
records the identity of the requester and is — faithfully to the source —
never consulted. -/
def pay_for_ticket (caller_user_id : Nat) (db : DB) (now : Int) (ticket_id : Nat) :
    Except PayError DB :=
  mark_ticket_paid db now ticket_id

/-- The committed store after a payment request: the new store on success,
the unchanged store when the service raised (rollback). -/
def payStep (db : DB) (now : Int) (ticket_id : Nat) : DB :=
  match mark_ticket_paid db now ticket_id with
  | Except.ok db' => db'
  | Except.error _ => db

inductive ExpireOutcome where
  | notFound
  | skipped
  | notYetExpired
  | expired
deriving DecidableEq, Repr

/-- The commit phase of `app/tasks/ticket_tasks.py` `_expire_ticket_async`
(lines 103-121): fetch and lock the event; if it exists decrement its
`tickets_sold` with a floor at 0; set the ticket's status to `expired`;
commit both writes together and return the `expired` outcome. -/
def expireCommit (db : DB) (ticket : Ticket) (ticket_id : Nat) : ExpireOutcome × DB :=
  let events' :=
    match findEvent db ticket.event_id with
    | some _ =>
        updBy Event.id ticket.event_id
          (fun e => { e with tickets_sold := max 0 (e.tickets_sold - 1) }) db.events
    | none => db.events
  let tickets' :=
    updBy Ticket.id ticket_id (fun t => { t with status := TicketStatus.expired }) db.tickets
  (ExpireOutcome.expired, { db with events := events', tickets := tickets' })

/-- `app/tasks/ticket_tasks.py` `_expire_ticket_async`: lock and fetch the
ticket; `notFound` if absent; `skipped` if its status is not `reserved`;
`notYetExpired` if `expires_at` is set and `now < expires_at`; otherwise
expire it via `expireCommit`.  The early returns commit nothing, so they pair
with the unchanged store. -/
def expire_ticket (db : DB) (now : Int) (ticket_id : Nat) : ExpireOutcome × DB :=
  match findTicket db ticket_id with
  | none => (ExpireOutcome.notFound, db)
  | some ticket =>
    if ticket.status ≠ TicketStatus.reserved then
      (ExpireOutcome.skipped, db)
    else
      match ticket.expires_at with
      | some e =>
          if now < e then (ExpireOutcome.notYetExpired, db)
          else expireCommit db ticket ticket_id
      | none => expireCommit db ticket ticket_id

/-- The row filter of `TicketRepository.get_expired_tickets` and of the sweep
query in `_cleanup_expired_tickets_async`:
`status = RESERVED AND expires_at IS NOT NULL AND expires_at < now`. -/
def expiredPred (now : Int) (t : Ticket) : Bool :=
  decide (t.status = TicketStatus.reserved) &&
    (match t.expires_at with | some e => decide (e < now) | none => false)

/-- `app/repositories/ticket_repository.py` `TicketRepository.get_expired_tickets`:
the reserved-and-past-expiry tickets, at most `limit` of them (default 100 at
the call sites). -/
def get_expired_tickets (db : DB) (now : Int) (limit : Nat) : List Ticket :=
  (db.tickets.filter (expiredPred now)).take limit

/-- Return value of the sweep (`expired_count`, `event_count`); the
zero-ticket branch of the source returns `expired_count = 0`. -/
structure SweepResult where
  expired_count : Nat
  event_count : Nat
deriving DecidableEq, Repr

/-- The per-event loop of `_cleanup_expired_tickets_async` (lines 178-189):
for each event id in turn, lock and fetch the event from the current store
state and, when it exists, apply the update `f eid` to it. -/
def sweepFold (f : Nat → Event → Event) (evs : List Event) (eids : List Nat) : List Event :=
  List.foldl
    (fun evs eid =>
      match findBy Event.id eid evs with
      | some _ => updBy Event.id eid (f eid) evs
      | none => evs)
    evs eids

/-- `app/tasks/ticket_tasks.py` `_cleanup_expired_tickets_async`: query up to
100 reserved tickets whose `expires_at` has passed; if none, commit nothing
and report `expired_count = 0`; otherwise, for each distinct event id of the
batch, lock the event and (if it exists) subtract the number of batch tickets
of that event from `tickets_sold`, floored at 0; mark every batch ticket
`expired`; commit everything in one transaction. -/
def cleanup_expired_tickets (db : DB) (now : Int) : SweepResult × DB :=
  let expired_tickets := (db.tickets.filter (expiredPred now)).take 100
  if expired_tickets.isEmpty then
    ({ expired_count := 0, event_count := 0 }, db)
  else
    let event_ids := (expired_tickets.map Ticket.event_id).dedup
    let events' :=
      sweepFold
        (fun eid e =>
          { e with
            tickets_sold :=
              max 0 (e.tickets_sold -
                ((expired_tickets.filter (fun t => t.event_id == eid)).length : Int)) })
        db.events event_ids
    let tickets' :=
      db.tickets.map
        (fun t =>
          if t.id ∈ expired_tickets.map Ticket.id then
            { t with status := TicketStatus.expired }
          else t)
    ({ expired_count := expired_tickets.length, event_count := event_ids.length },
      { db with events := events', tickets := tickets' })

/-- `_cleanup_expired_tickets_async` under a per-ticket fault model:
`fails t.id = true` means the store write for ticket `t` raises a transient
error.  The source wraps the whole batch in a single transaction — one
`commit` at the end, and an `except` clause that rolls everything back and
re-raises on any exception — so a failure while processing any batch ticket
undoes every effect of the run (`none` paired with the unchanged store);
with no failure the run behaves as `cleanup_expired_tickets`. -/
def cleanup_expired_tickets_faulty (db : DB) (now : Int) (fails : Nat → Bool) :
    Option SweepResult × DB :=
  let expired_tickets := (db.tickets.filter (expiredPred now)).take 100
  if expired_tickets.any (fun t => fails t.id) then
    (none, db)
  else
    let r := cleanup_expired_tickets db now
    (some r.1, r.2)

/-! ### Invariants -/

/-- §3 inventory bound: `0 ≤ tickets_sold ≤ total_tickets` for every event. -/
def invBound (db : DB) : Prop :=
  ∀ e ∈ db.events, 0 ≤ e.tickets_sold ∧ e.tickets_sold ≤ e.total_tickets

instance : DecidablePred invBound := fun db =>
  inferInstanceAs (Decidable (∀ e ∈ db.events, _ ∧ _))

/-- A ticket holding inventory: status `reserved` or `paid`. -/
def isActive (t : Ticket) : Bool :=
  decide (t.status = TicketStatus.reserved) || decide (t.status = TicketStatus.paid)

/-- Number of tickets of event `eid` with status in `{Reserved, Paid}`. -/
def countActive (tickets : List Ticket) (eid : Nat) : Nat :=
  tickets.countP (fun t => t.event_id == eid && isActive t)

/-- §3 relationship invariant: each event's denormalized `tickets_sold`
equals the live count of its reserved-or-paid tickets. -/
def soldMatches (db : DB) : Prop :=
  ∀ e ∈ db.events, e.tickets_sold = (countActive db.tickets e.id : Int)

instance : DecidablePred soldMatches := fun db =>
  inferInstanceAs (Decidable (∀ e ∈ db.events, _ = _))

/-- The event's `tickets_sold`, when the event exists. -/
def soldOf (db : DB) (eid : Nat) : Option Int :=
  (findEvent db eid).map Event.tickets_sold

/-! ### Generic lemmas about keyed lookup and update -/

theorem findBy_key {α : Type} {key : α → Nat} {k : Nat} {l : List α} {x : α}
    (h : findBy key k l = some x) : key x = k := by
  simpa using List.find?_some h

theorem mem_of_findBy {α : Type} {key : α → Nat} {k : Nat} {l : List α} {x : α}
    (h : findBy key k l = some x) : x ∈ l :=
  List.mem_of_find?_eq_some h

theorem findBy_eq_none {α : Type} {key : α → Nat} {k : Nat} {l : List α} :
    findBy key k l = none ↔ ∀ x ∈ l, key x ≠ k := by
  simp [findBy, List.find?_eq_none]

theorem findBy_map_keyed {α : Type} (key : α → Nat) (i : Nat) (g : α → α)
    (hg : ∀ x, key (g x) = key x) (l : List α) :
    findBy key i (l.map g) = (findBy key i l).map g := by
  unfold findBy
  rw [List.find?_map]
  have hp : ((fun x => key x == i) ∘ g) = fun x => key x == i := by
    funext x
    simp [Function.comp, hg]
  rw [hp]

theorem findBy_updBy {α : Type} (key : α → Nat) (k i : Nat) (f : α → α)
    (hf : ∀ x, key (f x) = key x) (l : List α) :
    findBy key i (updBy key k f l)
      = (findBy key i l).map (fun x => if key x = k then f x else x) := by
  unfold updBy
  apply findBy_map_keyed
  intro x
  by_cases hx : key x = k <;> simp [hx, hf]

theorem map_key_updBy {α : Type} (key : α → Nat) (k : Nat) (f : α → α)
    (hf : ∀ x, key (f x) = key x) (l : List α) :
    (updBy key k f l).map key = l.map key := by
  unfold updBy
  rw [List.map_map]
  apply List.map_congr_left
  intro x _
  by_cases hx : key x = k <;> simp [Function.comp, hx, hf]

theorem findBy_of_mem_nodup {α : Type} {key : α → Nat} {l : List α} {x : α}
    (hnd : (l.map key).Nodup) (hx : x ∈ l) :
    findBy key (key x) l = some x := by
  induction l with
  | nil => cases hx
  | cons y l ih =>
    rw [List.map_cons, List.nodup_cons] at hnd
    rcases List.mem_cons.mp hx with rfl | hx'
    · simp [findBy]
    · have hne : key y ≠ key x := by
        intro h
        exact hnd.1 (h ▸ List.mem_map_of_mem key hx')
      have : findBy key (key x) l = some x := ih hnd.2 hx'
      simpa [findBy, List.find?_cons, hne] using this

theorem eq_of_mem_key_nodup {α : Type} {key : α → Nat} {l : List α} {x t : α} {k : Nat}
    (hnd : (l.map key).Nodup) (hfind : findBy key k l = some t)
    (hx : x ∈ l) (hk : key x = k) : x = t := by
  have h1 := findBy_of_mem_nodup hnd hx
  rw [hk, hfind] at h1
  exact (Option.some_inj.mp h1).symm

/-! ### Generic counting lemmas -/

theorem countP_congr_mem {α : Type} {l : List α} (p q : α → Bool)
    (h : ∀ x ∈ l, p x = q x) : l.countP p = l.countP q := by
  induction l with
  | nil => rfl
  | cons x l ih =>
    rw [List.countP_cons, List.countP_cons, ih (fun y hy => h y (List.mem_cons_of_mem x hy)),
      h x (List.mem_cons_self x l)]

theorem countP_map_add_lost {α : Type} (l : List α) (g : α → α) (p : α → Bool)
    (h : ∀ x ∈ l, p (g x) = true → p x = true) :
    (l.map g).countP p + l.countP (fun x => p x && !(p (g x))) = l.countP p := by
  induction l with
  | nil => rfl
  | cons x l ih =>
    have hx := h x (List.mem_cons_self x l)
    have ih' := ih (fun y hy => h y (List.mem_cons_of_mem x hy))
    rw [List.map_cons, List.countP_cons, List.countP_cons, List.countP_cons]
    cases hpg : p (g x) with
    | true =>
      have hpx : p x = true := hx hpg
      simp only [hpg, hpx, Bool.not_true, Bool.and_false, if_true,
        if_neg Bool.false_ne_true]
      omega
    | false =>
      cases hpx : p x with
      | true =>
        simp only [hpg, hpx, Bool.not_false, Bool.true_and, if_true,
          if_neg Bool.false_ne_true]
        omega
      | false =>
        simp only [hpg, hpx, Bool.false_and, if_neg Bool.false_ne_true]
        omega

/-- Counting, over a list with pairwise-distinct keys, the elements whose key
belongs to a sublist `B` and which satisfy `q`, is counting `q` over `B`. -/
theorem countP_ids_sublist (key : Ticket → Nat) (q : Ticket → Bool) :
    ∀ {B l : List Ticket}, B.Sublist l → (l.map key).Nodup →
      l.countP (fun x => decide (key x ∈ B.map key) && q x) = B.countP q := by
  intro B l hsub
  induction hsub with
  | slnil => intro _; rfl
  | @cons B l a hsub ih =>
    intro hnd
    rw [List.map_cons, List.nodup_cons] at hnd
    have ha : key a ∉ B.map key := fun hmem => hnd.1 ((hsub.map key).mem hmem)
    have hfalse : (decide (key a ∈ B.map key) && q a) = false := by
      simp [ha]
    rw [List.countP_cons, hfalse, if_neg Bool.false_ne_true, Nat.add_zero]
    exact ih hnd.2
  | @cons₂ B l a hsub ih =>
    intro hnd
    rw [List.map_cons, List.nodup_cons] at hnd
    have hcong : ∀ x ∈ l,
        (decide (key x ∈ (a :: B).map key) && q x)
          = (decide (key x ∈ B.map key) && q x) := by
      intro x hx
      have hne : key x ≠ key a := by
        intro h
        exact hnd.1 (h ▸ List.mem_map_of_mem key hx)
      simp [List.mem_cons, hne]
    have htrue : decide (key a ∈ (a :: B).map key) = true := by
      simp [List.mem_cons]
    rw [List.countP_cons, List.countP_cons, countP_congr_mem _ _ hcong, ih hnd.2, htrue,
      Bool.true_and]

/-- With pairwise-distinct keys and a located row `t`, counting elements with
key `k` that satisfy `q` gives `1` or `0` according to `q t`. -/
theorem countP_key_eq {key : Ticket → Nat} {l : List Ticket} {k : Nat} {t : Ticket}
    (hnd : (l.map key).Nodup) (hfind : findBy key k l = some t) (q : Ticket → Bool) :
    l.countP (fun x => decide (key x = k) && q x) = if q t then 1 else 0 := by
  induction l with
  | nil => simp [findBy] at hfind
  | cons y l ih =>
    rw [List.map_cons, List.nodup_cons] at hnd
    by_cases hy : key y = k
    · have hty : y = t := by
        have : findBy key k (y :: l) = some y := by simp [findBy, hy]
        rw [hfind] at this
        exact (Option.some_inj.mp this).symm
      subst hty
      have hzero : l.countP (fun x => decide (key x = k) && q x) = 0 := by
        rw [List.countP_eq_zero]
        intro x hx
        have hne : key x ≠ k := by
          intro h
          exact hnd.1 (hy ▸ h ▸ List.mem_map_of_mem key hx)
        simp [hne]
      rw [List.countP_cons, hzero]
      simp [hy]
    · have hfind' : findBy key k l = some t := by
        simpa [findBy, List.find?_cons, hy] using hfind
      rw [List.countP_cons, ih hnd.2 hfind']
      simp [hy]

/-! ### Lemmas about the sweep's per-event loop -/

theorem sweepFold_map_id (f : Nat → Event → Event) (hf : ∀ eid e, (f eid e).id = e.id) :
    ∀ (eids : List Nat) (evs : List Event),
      (sweepFold f evs eids).map Event.id = evs.map Event.id := by
  intro eids
  induction eids with
  | nil => intro evs; rfl
  | cons eid rest ih =>
    intro evs
    show (sweepFold f _ rest).map Event.id = _
    rw [ih]
    cases hev : findBy Event.id eid evs with
    | none => simp only [hev]
    | some e =>
      simp only [hev]
      exact map_key_updBy Event.id eid (f eid) (hf eid) evs

theorem findBy_sweepFold (f : Nat → Event → Event) (hf : ∀ eid e, (f eid e).id = e.id) :
    ∀ (eids : List Nat), eids.Nodup → ∀ (evs : List Event) (i : Nat),
      findBy Event.id i (sweepFold f evs eids)
        = if i ∈ eids then (findBy Event.id i evs).map (f i)
          else findBy Event.id i evs := by
  intro eids
  induction eids with
  | nil => intro _ evs i; simp [sweepFold]
  | cons eid rest ih =>
    intro hnd evs i
    rw [List.nodup_cons] at hnd
    have hstep : sweepFold f evs (eid :: rest)
        = sweepFold f
            (match findBy Event.id eid evs with
             | some _ => updBy Event.id eid (f eid) evs
             | none => evs) rest := rfl
    rw [hstep, ih hnd.2]
    by_cases hi : i = eid
    · subst hi
      rw [if_neg hnd.1, if_pos (List.mem_cons_self i rest)]
      cases hev : findBy Event.id i evs with
      | none => simp [hev]
      | some e =>
        simp only [hev]
        rw [findBy_updBy Event.id i i (f i) (hf i) evs, hev]
        have he : e.id = i := findBy_key hev
        simp [he]
    · have hpres : findBy Event.id i
          (match findBy Event.id eid evs with
           | some _ => updBy Event.id eid (f eid) evs
           | none => evs) = findBy Event.id i evs := by
        cases hev : findBy Event.id eid evs with
        | none => rfl
        | some e =>
          simp only
          rw [findBy_updBy Event.id eid i (f eid) (hf eid) evs]
          cases hfi : findBy Event.id i evs with
          | none => rfl
          | some x =>
            have hx : x.id = i := findBy_key hfi
            simp [hx, hi]
      rw [hpres]
      by_cases hr : i ∈ rest
      · rw [if_pos hr, if_pos (List.mem_cons_of_mem eid hr)]
      · rw [if_neg hr, if_neg (by simp [List.mem_cons, hi, hr])]

/-! ### Characterizations of the operations -/

/-- The ticket row inserted by a successful reservation. -/
def reservedTicket (now : Int) (user_id event_id new_ticket_id : Nat) : Ticket :=
  { id := new_ticket_id
    user_id := user_id
    event_id := event_id
    status := TicketStatus.reserved
    expires_at := some (now + TICKET_EXPIRATION_TIME)
    paid_at := none }

theorem reserve_ok_inversion {db : DB} {now : Int} {uid eid ntid : Nat} {db' : DB} {t : Ticket}
    (hok : reserve_ticket db now uid eid ntid = Except.ok (db', t)) :
    ∃ ev, findEvent db eid = some ev ∧ uid ∈ db.users ∧
      ev.tickets_sold < ev.total_tickets ∧
      t = reservedTicket now uid eid ntid ∧
      db' = { db with
        events := updBy Event.id eid
          (fun e => { e with tickets_sold := e.tickets_sold + 1 }) db.events
        tickets := t :: db.tickets } := by
  unfold reserve_ticket at hok
  cases hev : findEvent db eid with
  | none => rw [hev] at hok; cases hok
  | some ev =>
    simp only [hev] at hok
    by_cases hu : uid ∈ db.users
    · rw [if_pos hu] at hok
      by_cases hs : ev.tickets_sold ≥ ev.total_tickets
      · rw [if_pos hs] at hok; cases hok
      · rw [if_neg hs] at hok
        simp only [Except.ok.injEq, Prod.mk.injEq] at hok
        refine ⟨ev, rfl, hu, lt_of_not_ge hs, hok.2.symm, ?_⟩
        rw [← hok.1, ← hok.2]
    · rw [if_neg hu] at hok; cases hok

theorem reserve_soldOut_iff {db : DB} {now : Int} {uid eid ntid : Nat} {ev : Event}
    (hev : findEvent db eid = some ev) (hu : uid ∈ db.users) :
    reserve_ticket db now uid eid ntid = Except.error ReserveError.soldOut
      ↔ ev.total_tickets ≤ ev.tickets_sold := by
  unfold reserve_ticket
  simp only [hev]
  rw [if_pos hu]
  by_cases hs : ev.tickets_sold ≥ ev.total_tickets
  · rw [if_pos hs]
    simp [ge_iff_le] at hs ⊢
    exact hs
  · rw [if_neg hs]
    simp [ge_iff_le] at hs ⊢
    exact hs

theorem pay_ok_inversion {db : DB} {now : Int} {tid : Nat} {db' : DB}
    (hok : mark_ticket_paid db now tid = Except.ok db') :
    ∃ t, findTicket db tid = some t ∧ t.status = TicketStatus.reserved ∧
      isExpired t now = false ∧
      db' = { db with tickets := update_status db.tickets tid TicketStatus.paid (some now) } := by
  unfold mark_ticket_paid at hok
  cases ht : findTicket db tid with
  | none => rw [ht] at hok; cases hok
  | some t =>
    simp only [ht] at hok
    by_cases hs : t.status ≠ TicketStatus.reserved
    · rw [if_pos hs] at hok; cases hok
    · rw [if_neg hs] at hok
      rw [not_not] at hs
      by_cases he : isExpired t now = true
      · rw [if_pos he] at hok; cases hok
      · rw [if_neg he] at hok
        rw [Bool.not_eq_true] at he
        exact ⟨t, rfl, hs, he, (Except.ok.inj hok).symm⟩

theorem pay_invalidTransition {db : DB} {now : Int} {tid : Nat} {t : Ticket}
    (ht : findTicket db tid = some t) (hs : t.status ≠ TicketStatus.reserved) :
    mark_ticket_paid db now tid = Except.error PayError.invalidTransition := by
  unfold mark_ticket_paid
  simp only [ht]
  rw [if_pos hs]

theorem payStep_of_error {db : DB} {now : Int} {tid : Nat} {err : PayError}
    (h : mark_ticket_paid db now tid = Except.error err) :
    payStep db now tid = db := by
  unfold payStep
  rw [h]

/-- The expiry test inside `mark_ticket_paid` for a located reserved ticket
with a set `expires_at`: it raises `Expired` exactly when `now` is strictly
past `expires_at`. -/
theorem pay_expired_iff {db : DB} {now : Int} {tid : Nat} {t : Ticket} {e : Int}
    (ht : findTicket db tid = some t) (hs : t.status = TicketStatus.reserved)
    (he : t.expires_at = some e) :
    mark_ticket_paid db now tid = Except.error PayError.expired ↔ e < now := by
  have hexp : isExpired t now = decide (e < now) := by
    unfold isExpired
    rw [if_neg (by simp [hs, he]), he]
  unfold mark_ticket_paid
  simp only [ht]
  rw [if_neg (by simp [hs]), hexp]
  by_cases hlt : e < now
  · simp [hlt]
  · simp [hlt]

theorem expire_notFound {db : DB} {now : Int} {tid : Nat}
    (h : findTicket db tid = none) :
    expire_ticket db now tid = (ExpireOutcome.notFound, db) := by
  unfold expire_ticket
  rw [h]

theorem expire_skipped {db : DB} {now : Int} {tid : Nat} {t : Ticket}
    (ht : findTicket db tid = some t) (hs : t.status ≠ TicketStatus.reserved) :
    expire_ticket db now tid = (ExpireOutcome.skipped, db) := by
  unfold expire_ticket
  simp only [ht]
  rw [if_pos hs]

theorem expire_notYet {db : DB} {now : Int} {tid : Nat} {t : Ticket} {e : Int}
    (ht : findTicket db tid = some t) (hs : t.status = TicketStatus.reserved)
    (he : t.expires_at = some e) (hlt : now < e) :
    expire_ticket db now tid = (ExpireOutcome.notYetExpired, db) := by
  unfold expire_ticket
  simp only [ht, he]
  rw [if_neg (by simp [hs]), if_pos hlt]

theorem expire_commits {db : DB} {now : Int} {tid : Nat} {t : Ticket}
    (ht : findTicket db tid = some t) (hs : t.status = TicketStatus.reserved)
    (hpast : ∀ e, t.expires_at = some e → e ≤ now) :
    expire_ticket db now tid = expireCommit db t tid := by
  unfold expire_ticket
  simp only [ht]
  rw [if_neg (by simp [hs])]
  cases he : t.expires_at with
  | none => rfl
  | some e =>
    have hnl : ¬ now < e := not_lt.mpr (hpast e he)
    simp [hnl]

theorem expireCommit_fst {db : DB} {t : Ticket} {tid : Nat} :
    (expireCommit db t tid).1 = ExpireOutcome.expired := rfl

theorem expireCommit_tickets {db : DB} {t : Ticket} {tid : Nat} :
    (expireCommit db t tid).2.tickets
      = updBy Ticket.id tid (fun x => { x with status := TicketStatus.expired }) db.tickets := rfl

theorem expireCommit_events_some {db : DB} {t : Ticket} {tid : Nat} {ev : Event}
    (hev : findEvent db t.event_id = some ev) :
    (expireCommit db t tid).2.events
      = updBy Event.id t.event_id
          (fun e => { e with tickets_sold := max 0 (e.tickets_sold - 1) }) db.events := by
  unfold expireCommit
  simp only [hev]

theorem expireCommit_events_none {db : DB} {t : Ticket} {tid : Nat}
    (hev : findEvent db t.event_id = none) :
    (expireCommit db t tid).2.events = db.events := by
  unfold expireCommit
  simp only [hev]

theorem findTicket_expireCommit {db : DB} {t : Ticket} {tid : Nat}
    (ht : findTicket db tid = some t) :
    findTicket (expireCommit db t tid).2 tid
      = some { t with status := TicketStatus.expired } := by
  have hkey : t.id = tid := findBy_key ht
  show findBy Ticket.id tid (expireCommit db t tid).2.tickets = _
  rw [expireCommit_tickets,
    findBy_updBy Ticket.id tid tid (fun x => { x with status := TicketStatus.expired })
      (fun x => rfl) db.tickets]
  show (findTicket db tid).map _ = _
  rw [ht]
  simp [hkey]

theorem soldOf_expireCommit {db : DB} {t : Ticket} {tid : Nat} :
    soldOf (expireCommit db t tid).2 t.event_id
      = (soldOf db t.event_id).map (fun s => max 0 (s - 1)) := by
  unfold soldOf
  cases hev : findEvent db t.event_id with
  | none =>
    have : findEvent (expireCommit db t tid).2 t.event_id = none := by
      show findBy Event.id t.event_id (expireCommit db t tid).2.events = none
      rw [expireCommit_events_none hev]
      exact hev
    rw [this]
    rfl
  | some ev =>
    have hkey : ev.id = t.event_id := findBy_key hev
    have : findEvent (expireCommit db t tid).2 t.event_id
        = some { ev with tickets_sold := max 0 (ev.tickets_sold - 1) } := by
      show findBy Event.id t.event_id (expireCommit db t tid).2.events = _
      rw [expireCommit_events_some hev,
        findBy_updBy Event.id t.event_id t.event_id
          (fun e => { e with tickets_sold := max 0 (e.tickets_sold - 1) })
          (fun e => rfl) db.events]
      show (findEvent db t.event_id).map _ = _
      rw [hev]
      simp [hkey]
    rw [this]
    rfl

theorem invBound_expireCommit {db : DB} {t : Ticket} {tid : Nat}
    (hinv : invBound db) : invBound (expireCommit db t tid).2 := by
  intro e' he'
  unfold expireCommit at he'
  cases hev : findEvent db t.event_id with
  | none =>
    simp only [hev] at he'
    exact hinv e' he'
  | some ev =>
    simp only [hev] at he'
    rcases List.mem_map.mp he' with ⟨e0, he0, rfl⟩
    obtain ⟨h1, h2⟩ := hinv e0 he0
    by_cases h0 : e0.id = t.event_id
    · simp only [if_pos h0]
      refine ⟨le_max_left 0 _, max_le (le_trans h1 h2) (by omega)⟩
    · simp only [if_neg h0]
      exact ⟨h1, h2⟩

theorem expire_cases (db : DB) (now : Int) (tid : Nat) :
    (expire_ticket db now tid).2 = db ∨
      ∃ t, findTicket db tid = some t ∧ t.status = TicketStatus.reserved ∧
        expire_ticket db now tid = expireCommit db t tid := by
  cases ht : findTicket db tid with
  | none => left; rw [expire_notFound ht]
  | some t =>
    by_cases hs : t.status ≠ TicketStatus.reserved
    · left; rw [expire_skipped ht hs]
    · rw [not_not] at hs
      cases he : t.expires_at with
      | none =>
        right
        refine ⟨t, rfl, hs, expire_commits ht hs ?_⟩
        intro e h
        rw [he] at h
        cases h
      | some e =>
        by_cases hlt : now < e
        · left; rw [expire_notYet ht hs he hlt]
        · right
          refine ⟨t, rfl, hs, expire_commits ht hs ?_⟩
          intro e' h'
          rw [he] at h'
          injection h' with heq
          rw [← heq]
          exact le_of_not_lt hlt

theorem invBound_expire {db : DB} {now : Int} {tid : Nat}
    (hinv : invBound db) : invBound (expire_ticket db now tid).2 := by
  rcases expire_cases db now tid with h | ⟨t, _, _, h⟩
  · rw [h]; exact hinv
  · rw [h]; exact invBound_expireCommit hinv

/-! ### Preservation of the counter-vs-count invariant -/

theorem countActive_cons (t : Ticket) (l : List Ticket) (eid : Nat) :
    countActive (t :: l) eid
      = countActive l eid + (if t.event_id == eid && isActive t then 1 else 0) := by
  unfold countActive
  rw [List.countP_cons]

theorem soldMatches_reserve {db : DB} {now : Int} {uid eid ntid : Nat} {db' : DB} {t : Ticket}
    (hsm : soldMatches db)
    (hok : reserve_ticket db now uid eid ntid = Except.ok (db', t)) :
    soldMatches db' := by
  obtain ⟨ev, hev, hu, hlt, ht, hdb⟩ := reserve_ok_inversion hok
  subst hdb
  subst ht
  intro e' he'
  rcases List.mem_map.mp he' with ⟨e0, he0, rfl⟩
  have hsm0 := hsm e0 he0
  by_cases h0 : e0.id = eid
  · simp only [if_pos h0]
    show e0.tickets_sold + 1 = _
    rw [countActive_cons]
    have hind : ((reservedTicket now uid eid ntid).event_id == e0.id
        && isActive (reservedTicket now uid eid ntid)) = true := by
      simp [reservedTicket, isActive, h0]
    rw [hind, if_pos rfl]
    push_cast
    omega
  · simp only [if_neg h0]
    show e0.tickets_sold = _
    rw [countActive_cons]
    have hind : ((reservedTicket now uid eid ntid).event_id == e0.id
        && isActive (reservedTicket now uid eid ntid)) = false := by
      simp [reservedTicket, isActive]
      intro h
      exact absurd h.symm h0
    rw [hind, if_neg Bool.false_ne_true, Nat.add_zero]
    exact hsm0

theorem soldMatches_pay {db : DB} {now : Int} {tid : Nat} {db' : DB}
    (hndT : (db.tickets.map Ticket.id).Nodup)
    (hsm : soldMatches db)
    (hok : mark_ticket_paid db now tid = Except.ok db') :
    soldMatches db' := by
  obtain ⟨t, ht, hres, hne, hdb⟩ := pay_ok_inversion hok
  subst hdb
  intro e' he'
  have hsm0 := hsm e' he'
  rw [hsm0]
  show _ = (countActive (update_status db.tickets tid TicketStatus.paid (some now)) e'.id : Int)
  congr 1
  unfold countActive update_status updBy
  rw [List.countP_map]
  apply countP_congr_mem
  intro x hx
  by_cases hxid : x.id = tid
  · have hxt : x = t := eq_of_mem_key_nodup hndT ht hx hxid
    subst hxt
    simp [Function.comp, hxid, isActive, hres]
  · simp [Function.comp, hxid]

/-- Ticket-count bookkeeping of the expire commit: for every event id `i`,
the post-commit active count plus the one lost ticket (when the expired
ticket belongs to `i`) equals the pre-commit active count. -/
theorem countActive_expireCommit {db : DB} {tid : Nat} {t : Ticket}
    (hndT : (db.tickets.map Ticket.id).Nodup)
    (ht : findTicket db tid = some t) (hres : t.status = TicketStatus.reserved) (i : Nat) :
    countActive (expireCommit db t tid).2.tickets i
      + (if t.event_id == i then 1 else 0) = countActive db.tickets i := by
  rw [expireCommit_tickets]
  unfold countActive updBy
  have hlost := countP_map_add_lost db.tickets
    (fun x => if x.id = tid then { x with status := TicketStatus.expired } else x)
    (fun x => x.event_id == i && isActive x)
    (by
      intro x hx hpgx
      by_cases hxid : x.id = tid
      · simp [hxid, isActive] at hpgx
      · simpa [hxid] using hpgx)
  have hlosteq : db.tickets.countP (fun x =>
      (x.event_id == i && isActive x) &&
        !((if x.id = tid then { x with status := TicketStatus.expired } else x).event_id == i
            && isActive (if x.id = tid then { x with status := TicketStatus.expired } else x)))
      = (if t.event_id == i then 1 else 0) := by
    rw [countP_congr_mem _ (fun x => decide (x.id = tid) && (x.event_id == i))
      (by
        intro x hx
        by_cases hxid : x.id = tid
        · have hxt : x = t := eq_of_mem_key_nodup hndT ht hx hxid
          subst hxt
          simp [hxid, isActive, hres]
        · simp [hxid, isActive]
          tauto)]
    exact countP_key_eq hndT ht (fun x => x.event_id == i)
  rw [← hlosteq, ← hlost]

theorem soldMatches_expireCommit {db : DB} {tid : Nat} {t : Ticket}
    (hndT : (db.tickets.map Ticket.id).Nodup)
    (hsm : soldMatches db)
    (ht : findTicket db tid = some t) (hres : t.status = TicketStatus.reserved) :
    soldMatches (expireCommit db t tid).2 := by
  have hmem : t ∈ db.tickets := mem_of_findBy ht
  intro e' he'
  cases hev : findEvent db t.event_id with
  | none =>
    have hne : ∀ x ∈ db.events, x.id ≠ t.event_id := findBy_eq_none.mp hev
    have he'' : e' ∈ db.events := by
      rw [show (expireCommit db t tid).2.events = db.events from
        expireCommit_events_none hev] at he'
      exact he'
    have hcnt := countActive_expireCommit hndT ht hres e'.id
    have hind : (t.event_id == e'.id) = false := by
      simp
      intro h
      exact hne e' he'' h.symm
    rw [hind, if_neg Bool.false_ne_true, Nat.add_zero] at hcnt
    rw [hsm e' he'', ← hcnt]
  | some ev =>
    rw [show (expireCommit db t tid).2.events
      = updBy Event.id t.event_id
          (fun e => { e with tickets_sold := max 0 (e.tickets_sold - 1) }) db.events from
      expireCommit_events_some hev] at he'
    rcases List.mem_map.mp he' with ⟨e0, he0, rfl⟩
    have hsm0 := hsm e0 he0
    have hcnt := countActive_expireCommit hndT ht hres e0.id
    by_cases h0 : e0.id = t.event_id
    · simp only [if_pos h0]
      show max 0 (e0.tickets_sold - 1) = _
      have hind : (t.event_id == e0.id) = true := by simp [h0]
      rw [hind, if_pos rfl] at hcnt
      have hpos : 0 < countActive db.tickets e0.id := by
        unfold countActive
        rw [List.countP_pos_iff]
        exact ⟨t, hmem, by simp [h0, isActive, hres]⟩
      have hmax : max 0 (e0.tickets_sold - 1)
          = (countActive db.tickets e0.id : Int) - 1 := by
        rw [hsm0]
        rw [max_eq_right]
        omega
      rw [hmax]
      omega
    · simp only [if_neg h0]
      show e0.tickets_sold = _
      have hind : (t.event_id == e0.id) = false := by
        simp
        intro h
        exact h0 h.symm
      rw [hind, if_neg Bool.false_ne_true, Nat.add_zero] at hcnt
      rw [hsm0, ← hcnt]

theorem soldMatches_expire {db : DB} {now : Int} {tid : Nat}
    (hndT : (db.tickets.map Ticket.id).Nodup)
    (hsm : soldMatches db) :
    soldMatches (expire_ticket db now tid).2 := by
  rcases expire_cases db now tid with h | ⟨t, ht, hres, h⟩
  · rw [h]; exact hsm
  · rw [h]; exact soldMatches_expireCommit hndT hsm ht hres

/-- When the invariant held and the event row exists, the expire commit
subtracts exactly one from `tickets_sold` (the clamp does not engage). -/
theorem soldOf_expireCommit_exact {db : DB} {tid : Nat} {t : Ticket} {ev : Event}
    (hsm : soldMatches db)
    (ht : findTicket db tid = some t) (hres : t.status = TicketStatus.reserved)
    (hev : findEvent db t.event_id = some ev) :
    soldOf (expireCommit db t tid).2 t.event_id = some (ev.tickets_sold - 1) := by
  have hmem : t ∈ db.tickets := mem_of_findBy ht
  have hpos : 0 < countActive db.tickets ev.id := by
    unfold countActive
    rw [List.countP_pos_iff]
    refine ⟨t, hmem, ?_⟩
    have : ev.id = t.event_id := findBy_key hev
    simp [this, isActive, hres]
  have hsold : (1 : Int) ≤ ev.tickets_sold := by
    rw [hsm ev (mem_of_findBy hev)]
    omega
  rw [soldOf_expireCommit]
  unfold soldOf
  rw [hev]
  show some (max 0 (ev.tickets_sold - 1)) = _
  rw [max_eq_right (by omega)]

/-! ### Characterization of the sweep -/

theorem cleanup_of_empty {db : DB} {now : Int}
    (h : ((db.tickets.filter (expiredPred now)).take 100).isEmpty) :
    cleanup_expired_tickets db now = ({ expired_count := 0, event_count := 0 }, db) := by
  unfold cleanup_expired_tickets
  rw [if_pos h]

theorem cleanup_of_nonempty {db : DB} {now : Int}
    (h : ¬ ((db.tickets.filter (expiredPred now)).take 100).isEmpty) :
    cleanup_expired_tickets db now
      = ({ expired_count := ((db.tickets.filter (expiredPred now)).take 100).length,
           event_count :=
             ((((db.tickets.filter (expiredPred now)).take 100).map Ticket.event_id).dedup).length },
         { db with
           events :=
             sweepFold
               (fun eid e =>
                 { e with
                   tickets_sold :=
                     max 0 (e.tickets_sold -
                       ((((db.tickets.filter (expiredPred now)).take 100).filter
                           (fun t => t.event_id == eid)).length : Int)) })
               db.events
               ((((db.tickets.filter (expiredPred now)).take 100).map Ticket.event_id).dedup)
           tickets :=
             db.tickets.map
               (fun t =>
                 if t.id ∈ ((db.tickets.filter (expiredPred now)).take 100).map Ticket.id then
                   { t with status := TicketStatus.expired }
                 else t) }) := by
  unfold cleanup_expired_tickets
  rw [if_neg h]

theorem sweepBatch_sublist (db : DB) (now : Int) :
    ((db.tickets.filter (expiredPred now)).take 100).Sublist db.tickets :=
  (List.take_sublist _ _).trans (List.filter_sublist _)

theorem sweepBatch_reserved {db : DB} {now : Int} {b : Ticket}
    (hb : b ∈ (db.tickets.filter (expiredPred now)).take 100) :
    b.status = TicketStatus.reserved := by
  have hp : expiredPred now b = true := List.of_mem_filter (List.mem_of_mem_take hb)
  unfold expiredPred at hp
  rw [Bool.and_eq_true] at hp
  exact of_decide_eq_true hp.1

/-- Ticket-count bookkeeping of the sweep commit: for every event id `i`, the
post-sweep active count plus the number of batch tickets of event `i` equals
the pre-sweep active count. -/
theorem countActive_cleanup (db : DB) (now : Int)
    (hndT : (db.tickets.map Ticket.id).Nodup) (i : Nat) :
    countActive
        (db.tickets.map
          (fun t =>
            if t.id ∈ ((db.tickets.filter (expiredPred now)).take 100).map Ticket.id then
              { t with status := TicketStatus.expired }
            else t)) i
      + (((db.tickets.filter (expiredPred now)).take 100).filter
          (fun t => t.event_id == i)).length
      = countActive db.tickets i := by
  unfold countActive
  have hlost := countP_map_add_lost db.tickets
    (fun t =>
      if t.id ∈ ((db.tickets.filter (expiredPred now)).take 100).map Ticket.id then
        { t with status := TicketStatus.expired }
      else t)
    (fun x => x.event_id == i && isActive x)
    (by
      intro x hx hpgx
      simp only [] at hpgx ⊢
      by_cases hxid : x.id ∈ ((db.tickets.filter (expiredPred now)).take 100).map Ticket.id
      · rw [if_pos hxid] at hpgx
        rw [show isActive { x with status := TicketStatus.expired } = false from rfl,
          Bool.and_false] at hpgx
        cases hpgx
      · rwa [if_neg hxid] at hpgx)
  have hlosteq : db.tickets.countP (fun x =>
      (x.event_id == i && isActive x) &&
        !((if x.id ∈ ((db.tickets.filter (expiredPred now)).take 100).map Ticket.id then
              { x with status := TicketStatus.expired }
            else x).event_id == i
          && isActive (if x.id ∈ ((db.tickets.filter (expiredPred now)).take 100).map Ticket.id then
              { x with status := TicketStatus.expired }
            else x)))
      = (((db.tickets.filter (expiredPred now)).take 100).filter
          (fun t => t.event_id == i)).length := by
    rw [countP_congr_mem _
      (fun x =>
        decide (x.id ∈ ((db.tickets.filter (expiredPred now)).take 100).map Ticket.id)
          && (x.event_id == i && isActive x))
      (by
        intro x hx
        simp only []
        by_cases hxid : x.id ∈ ((db.tickets.filter (expiredPred now)).take 100).map Ticket.id
        · rw [if_pos hxid]
          rw [show isActive { x with status := TicketStatus.expired } = false from rfl,
            Bool.and_false, Bool.not_false, Bool.and_true]
          simp only [hxid, decide_True, Bool.true_and]
        · rw [if_neg hxid]
          rw [Bool.and_not_self]
          simp only [hxid, decide_False, Bool.false_and])]
    rw [countP_ids_sublist Ticket.id (fun x => x.event_id == i && isActive x)
      (sweepBatch_sublist db now) hndT]
    rw [countP_congr_mem _ (fun x => x.event_id == i)
      (by
        intro b hb
        have hres := sweepBatch_reserved hb
        simp [isActive, hres])]
    rw [List.countP_eq_length_filter]
  rw [← hlosteq, ← hlost]

theorem soldMatches_cleanup {db : DB} {now : Int}
    (hndT : (db.tickets.map Ticket.id).Nodup)
    (hndE : (db.events.map Event.id).Nodup)
    (hsm : soldMatches db) :
    soldMatches (cleanup_expired_tickets db now).2 := by
  by_cases hempty : ((db.tickets.filter (expiredPred now)).take 100).isEmpty
  · rw [cleanup_of_empty hempty]
    exact hsm
  · rw [cleanup_of_nonempty hempty]
    intro e' he'
    have hfId : ∀ (eid : Nat) (e : Event),
        ((fun (eid : Nat) (e : Event) =>
          { e with
            tickets_sold :=
              max 0 (e.tickets_sold -
                ((((db.tickets.filter (expiredPred now)).take 100).filter
                    (fun (t : Ticket) => t.event_id == eid)).length : Int)) }) eid e).id = e.id :=
      fun _ _ => rfl
    have hndE' : ((sweepFold
        (fun eid e =>
          { e with
            tickets_sold :=
              max 0 (e.tickets_sold -
                ((((db.tickets.filter (expiredPred now)).take 100).filter
                    (fun t => t.event_id == eid)).length : Int)) })
        db.events
        ((((db.tickets.filter (expiredPred now)).take 100).map Ticket.event_id).dedup)).map
          Event.id).Nodup := by
      rw [sweepFold_map_id _ hfId]
      exact hndE
    have hfound := findBy_of_mem_nodup hndE' he'
    rw [findBy_sweepFold _ hfId _ (List.nodup_dedup _) db.events e'.id] at hfound
    have hcnt := countActive_cleanup db now hndT e'.id
    by_cases hin : e'.id ∈ (((db.tickets.filter (expiredPred now)).take 100).map Ticket.event_id).dedup
    · rw [if_pos hin] at hfound
      cases hev : findBy Event.id e'.id db.events with
      | none => rw [hev] at hfound; cases hfound
      | some e0 =>
        rw [hev] at hfound
        have he0 : e' = { e0 with
            tickets_sold :=
              max 0 (e0.tickets_sold -
                ((((db.tickets.filter (expiredPred now)).take 100).filter
                    (fun t => t.event_id == e'.id)).length : Int)) } := by
          injection hfound.symm
        have hsm0 := hsm e0 (mem_of_findBy hev)
        have hkey : e0.id = e'.id := findBy_key hev
        rw [hkey] at hsm0
        have hsold : e'.tickets_sold
            = max 0 ((countActive db.tickets e'.id : Int) -
                ((((db.tickets.filter (expiredPred now)).take 100).filter
                  (fun t => t.event_id == e'.id)).length : Int)) := by
          conv_lhs => rw [he0]
          show max 0 (e0.tickets_sold - _) = _
          rw [hsm0]
        rw [hsold, max_eq_right (by omega)]
        show _ = (countActive
            (db.tickets.map
              (fun t =>
                if t.id ∈ ((db.tickets.filter (expiredPred now)).take 100).map Ticket.id then
                  { t with status := TicketStatus.expired }
                else t)) e'.id : Int)
        omega
    · rw [if_neg hin] at hfound
      have hsm0 := hsm e' (mem_of_findBy hfound)
      have hzero : (((db.tickets.filter (expiredPred now)).take 100).filter
          (fun t => t.event_id == e'.id)).length = 0 := by
        rw [List.length_eq_zero]
        rw [List.filter_eq_nil_iff]
        intro b hb
        simp only [beq_iff_eq]
        intro hbe
        exact hin (List.mem_dedup.mpr (hbe ▸ List.mem_map_of_mem Ticket.event_id hb))
      rw [hzero, Nat.add_zero] at hcnt
      show _ = (countActive
          (db.tickets.map
            (fun t =>
              if t.id ∈ ((db.tickets.filter (expiredPred now)).take 100).map Ticket.id then
                { t with status := TicketStatus.expired }
              else t)) e'.id : Int)
      rw [hsm0, ← hcnt]

/-! ### Terminal statuses survive every operation -/

theorem pay_preserves_terminal {db : DB} {now : Int} {tid : Nat}
    (hndT : (db.tickets.map Ticket.id).Nodup) {x : Ticket}
    (hx : x ∈ db.tickets) (hterm : x.status ≠ TicketStatus.reserved) :
    x ∈ (payStep db now tid).tickets := by
  unfold payStep
  cases hres : mark_ticket_paid db now tid with
  | error e => exact hx
  | ok db' =>
    obtain ⟨t, ht, htres, hne, hdb⟩ := pay_ok_inversion hres
    subst hdb
    unfold update_status updBy
    by_cases hxid : x.id = tid
    · exact absurd (by rw [eq_of_mem_key_nodup hndT ht hx hxid]; exact htres) hterm
    · exact List.mem_map.mpr ⟨x, hx, by simp [hxid]⟩

theorem expire_preserves_terminal {db : DB} {now : Int} {tid : Nat}
    (hndT : (db.tickets.map Ticket.id).Nodup) {x : Ticket}
    (hx : x ∈ db.tickets) (hterm : x.status ≠ TicketStatus.reserved) :
    x ∈ (expire_ticket db now tid).2.tickets := by
  rcases expire_cases db now tid with h | ⟨t, ht, htres, h⟩
  · rw [h]; exact hx
  · rw [h, show (expireCommit db t tid).2.tickets
      = updBy Ticket.id tid (fun y => { y with status := TicketStatus.expired }) db.tickets from
      expireCommit_tickets]
    unfold updBy
    by_cases hxid : x.id = tid
    · exact absurd (by rw [eq_of_mem_key_nodup hndT ht hx hxid]; exact htres) hterm
    · exact List.mem_map.mpr ⟨x, hx, by simp [hxid]⟩

theorem cleanup_preserves_terminal {db : DB} {now : Int}
    (hndT : (db.tickets.map Ticket.id).Nodup) {x : Ticket}
    (hx : x ∈ db.tickets) (hterm : x.status ≠ TicketStatus.reserved) :
    x ∈ (cleanup_expired_tickets db now).2.tickets := by
  by_cases hempty : ((db.tickets.filter (expiredPred now)).take 100).isEmpty
  · rw [cleanup_of_empty hempty]; exact hx
  · rw [cleanup_of_nonempty hempty]
    refine List.mem_map.mpr ⟨x, hx, ?_⟩
    have hxid : x.id ∉ ((db.tickets.filter (expiredPred now)).take 100).map Ticket.id := by
      intro hmem
      rcases List.mem_map.mp hmem with ⟨b, hb, hbid⟩
      have hbmem : b ∈ db.tickets := (sweepBatch_sublist db now).mem hb
      have hfind : findBy Ticket.id x.id db.tickets = some x := findBy_of_mem_nodup hndT hx
      have hbx : b = x := eq_of_mem_key_nodup hndT hfind hbmem hbid
      exact hterm (hbx ▸ sweepBatch_reserved hb)
    rw [if_neg hxid]

/-! ### Inversion of the `expired` outcome and the fault model of the sweep -/

theorem expire_expired_inversion {db db2 : DB} {now : Int} {tid : Nat}
    (h : expire_ticket db now tid = (ExpireOutcome.expired, db2)) :
    ∃ t, findTicket db tid = some t ∧ t.status = TicketStatus.reserved ∧
      db2 = (expireCommit db t tid).2 := by
  cases ht : findTicket db tid with
  | none =>
    rw [expire_notFound ht] at h
    cases h
  | some t =>
    by_cases hs : t.status ≠ TicketStatus.reserved
    · rw [expire_skipped ht hs] at h
      cases h
    · rw [not_not] at hs
      cases he : t.expires_at with
      | none =>
        have hc := @expire_commits db now tid t ht hs
          (by intro e h'; rw [he] at h'; cases h')
        rw [hc] at h
        exact ⟨t, rfl, hs, (congrArg Prod.snd h).symm⟩
      | some e =>
        by_cases hlt : now < e
        · rw [expire_notYet ht hs he hlt] at h
          cases h
        · have hc := @expire_commits db now tid t ht hs
            (by
              intro e' h'
              rw [he] at h'
              injection h' with heq
              rw [← heq]
              exact le_of_not_lt hlt)
          rw [hc] at h
          exact ⟨t, rfl, hs, (congrArg Prod.snd h).symm⟩

theorem cleanup_faulty_of_fault {db : DB} {now : Int} {fails : Nat → Bool}
    (h : ∃ t ∈ (db.tickets.filter (expiredPred now)).take 100, fails t.id = true) :
    cleanup_expired_tickets_faulty db now fails = (none, db) := by
  unfold cleanup_expired_tickets_faulty
  rw [if_pos (List.any_eq_true.mpr h)]

theorem cleanup_faulty_of_no_fault {db : DB} {now : Int} {fails : Nat → Bool}
    (h : ∀ t ∈ (db.tickets.filter (expiredPred now)).take 100, fails t.id = false) :
    cleanup_expired_tickets_faulty db now fails
      = (some (cleanup_expired_tickets db now).1, (cleanup_expired_tickets db now).2) := by
  unfold cleanup_expired_tickets_faulty
  rw [if_neg (by
    rw [List.any_eq_true]
    rintro ⟨t, htm, hft⟩
    rw [h t htm] at hft
    cases hft)]

/-! ### The expired-ticket query -/

theorem mem_get_expired {db : DB} {now : Int} {limit : Nat} {t : Ticket}
    (ht : t ∈ get_expired_tickets db now limit) :
    t.status = TicketStatus.reserved ∧ ∃ e, t.expires_at = some e ∧ e < now := by
  have hp : expiredPred now t = true :=
    List.of_mem_filter (List.mem_of_mem_take ht)
  unfold expiredPred at hp
  rw [Bool.and_eq_true] at hp
  refine ⟨of_decide_eq_true hp.1, ?_⟩
  have h2 := hp.2
  cases he : t.expires_at with
  | none => rw [he] at h2; cases h2
  | some e =>
    rw [he] at h2
    exact ⟨e, rfl, of_decide_eq_true h2⟩

theorem get_expired_length_le (db : DB) (now : Int) (limit : Nat) :
    (get_expired_tickets db now limit).length ≤ limit :=
  List.length_take_le limit _

theorem cleanup_of_no_expired {db : DB} {now : Int}
    (h : get_expired_tickets db now 100 = []) :
    cleanup_expired_tickets db now = ({ expired_count := 0, event_count := 0 }, db) := by
  apply cleanup_of_empty
  rw [show (db.tickets.filter (expiredPred now)).take 100
    = get_expired_tickets db now 100 from rfl, h]
  rfl

/-! ### Concrete sample stores used by the witnesses -/

/-- One event (3 total / 1 sold), one reserved ticket (id 5, owner 1,
expires at t = 100), users 1 and 2. -/
def dbA : DB :=
  { events := [{ id := 10, total_tickets := 3, tickets_sold := 1 }]
    tickets := [{ id := 5, user_id := 1, event_id := 10, status := TicketStatus.reserved,
                  expires_at := some 100, paid_at := none }]
    users := [1, 2] }

/-- `dbA` after ticket 5 has been expired. -/
def dbA_afterExpire : DB :=
  { events := [{ id := 10, total_tickets := 3, tickets_sold := 0 }]
    tickets := [{ id := 5, user_id := 1, event_id := 10, status := TicketStatus.expired,
                  expires_at := some 100, paid_at := none }]
    users := [1, 2] }

/-- Store with one paid ticket (id 5) and one reserved ticket (id 6). -/
def dbC : DB :=
  { events := [{ id := 10, total_tickets := 3, tickets_sold := 2 }]
    tickets := [{ id := 5, user_id := 1, event_id := 10, status := TicketStatus.paid,
                  expires_at := some 100, paid_at := some 90 },
                { id := 6, user_id := 1, event_id := 10, status := TicketStatus.reserved,
                  expires_at := some 100, paid_at := none }]
    users := [1] }

/-- Store for the sweep fault analysis: two reserved tickets past expiry. -/
def db9 : DB :=
  { events := [{ id := 20, total_tickets := 5, tickets_sold := 2 }]
    tickets := [{ id := 1, user_id := 1, event_id := 20, status := TicketStatus.reserved,
                  expires_at := some 10, paid_at := none },
                { id := 2, user_id := 1, event_id := 20, status := TicketStatus.reserved,
                  expires_at := some 10, paid_at := none }]
    users := [1] }

/-- The first ticket of `db9`. -/
def t9a : Ticket :=
  { id := 1, user_id := 1, event_id := 20, status := TicketStatus.reserved,
    expires_at := some 10, paid_at := none }

/-- Store with a reserved, past-expiry ticket whose event row is missing. -/
def db10 : DB :=
  { events := []
    tickets := [{ id := 3, user_id := 1, event_id := 99, status := TicketStatus.reserved,
                  expires_at := some 10, paid_at := none }]
    users := [1] }

/-! ### The claims -/

/-- C1: every core operation preserves the inventory bound
`0 ≤ tickets_sold ≤ total_tickets`.  With the event present and the user
existing, `reserve_ticket` fails with `SoldOut` exactly when
`tickets_sold ≥ total_tickets` (the raise aborts the transaction, so the
embedding leaves the store untouched and creates no ticket); a successful
reserve increments the event's `tickets_sold` by exactly 1 and preserves the
bound; `_expire_ticket_async` replaces the ticket's event counter by
`max 0 (tickets_sold - 1)` — a decrement by one clamped at 0 — and preserves
the bound, so the counter is never negative and never exceeds
`total_tickets` at any committed state. -/
theorem inventory_bound_preserved (db : DB) (now : Int) (uid eid ntid tid : Nat) (ev : Event)
    (hndE : (db.events.map Event.id).Nodup)
    (hev : findEvent db eid = some ev) (hu : uid ∈ db.users)
    (hinv : invBound db) :
    (reserve_ticket db now uid eid ntid = Except.error ReserveError.soldOut
        ↔ ev.total_tickets ≤ ev.tickets_sold)
    ∧ (∀ db' t, reserve_ticket db now uid eid ntid = Except.ok (db', t) →
        soldOf db' eid = some (ev.tickets_sold + 1) ∧ invBound db')
    ∧ (∀ t, findTicket db tid = some t → t.status = TicketStatus.reserved →
        (∀ e, t.expires_at = some e → e ≤ now) →
        soldOf (expire_ticket db now tid).2 t.event_id
          = (soldOf db t.event_id).map (fun s => max 0 (s - 1)))
    ∧ invBound (expire_ticket db now tid).2 := by
  refine ⟨reserve_soldOut_iff hev hu, ?_, ?_, invBound_expire hinv⟩
  · intro db' t hok
    obtain ⟨ev2, hev2, _, hlt, htk, hdb⟩ := reserve_ok_inversion hok
    rw [hev] at hev2
    injection hev2 with hev2eq
    subst hev2eq
    constructor
    · rw [hdb]
      show (findBy Event.id eid (updBy Event.id eid
          (fun e => { e with tickets_sold := e.tickets_sold + 1 }) db.events)).map
            Event.tickets_sold = _
      rw [findBy_updBy Event.id eid eid
        (fun e => { e with tickets_sold := e.tickets_sold + 1 }) (fun e => rfl) db.events]
      show ((findEvent db eid).map _).map _ = _
      rw [hev]
      have hkey : ev.id = eid := findBy_key hev
      simp [hkey]
    · rw [hdb]
      intro e' he'
      rcases List.mem_map.mp he' with ⟨e0, he0, rfl⟩
      obtain ⟨hx, hy⟩ := hinv e0 he0
      by_cases h0 : e0.id = eid
      · have he0ev : e0 = ev := eq_of_mem_key_nodup hndE hev he0 h0
        subst he0ev
        simp only [if_pos h0]
        exact ⟨by omega, by omega⟩
      · simp only [if_neg h0]
        exact ⟨hx, hy⟩
  · intro t ht hres hpast
    rw [expire_commits ht hres hpast]
    exact soldOf_expireCommit

theorem inventory_bound_preserved_witness :
    invBound dbA
    ∧ (findEvent dbA 10 = some { id := 10, total_tickets := 3, tickets_sold := 1 })
    ∧ invBound (expire_ticket dbA 200 5).2 :=
  ⟨by decide, by decide,
    (inventory_bound_preserved dbA 200 1 10 6 5
      { id := 10, total_tickets := 3, tickets_sold := 1 }
      (by decide) (by decide) (by decide) (by decide)).2.2.2⟩

/-- C2: after every committed transaction of reserve, pay, expire or the
sweep, an event's `tickets_sold` equals the number of its tickets with status
Reserved or Paid: a successful reserve creates one Reserved ticket (and, per
C1, adds 1 to the counter); pay leaves the events table untouched; expire
turns the located Reserved ticket into Expired while — when the invariant
held and the event exists — subtracting exactly 1; and all four operations
preserve the counter-equals-count invariant. -/
theorem counter_matches_active_count (db : DB) (now : Int) (uid eid ntid tidp tidx : Nat)
    (hndT : (db.tickets.map Ticket.id).Nodup)
    (hndE : (db.events.map Event.id).Nodup)
    (hsm : soldMatches db) :
    (∀ db' t, reserve_ticket db now uid eid ntid = Except.ok (db', t) →
        t.status = TicketStatus.reserved ∧ t ∈ db'.tickets ∧ soldMatches db')
    ∧ (∀ db', mark_ticket_paid db now tidp = Except.ok db' →
        db'.events = db.events ∧ soldMatches db')
    ∧ soldMatches (expire_ticket db now tidx).2
    ∧ (∀ t ev, findTicket db tidx = some t → t.status = TicketStatus.reserved →
        (∀ e, t.expires_at = some e → e ≤ now) → findEvent db t.event_id = some ev →
        soldOf (expire_ticket db now tidx).2 t.event_id = some (ev.tickets_sold - 1)
        ∧ (findTicket (expire_ticket db now tidx).2 tidx).map Ticket.status
            = some TicketStatus.expired)
    ∧ soldMatches (cleanup_expired_tickets db now).2 := by
  refine ⟨?_, ?_, soldMatches_expire hndT hsm, ?_, soldMatches_cleanup hndT hndE hsm⟩
  · intro db' t hok
    obtain ⟨ev2, hev2, hu2, hlt, htk, hdb⟩ := reserve_ok_inversion hok
    refine ⟨by rw [htk]; rfl, ?_, soldMatches_reserve hsm hok⟩
    rw [hdb]
    exact List.mem_cons_self _ _
  · intro db' hok
    obtain ⟨t, ht, hres, hne, hdb⟩ := pay_ok_inversion hok
    exact ⟨by rw [hdb], soldMatches_pay hndT hsm hok⟩
  · intro t ev ht hres hpast hev
    rw [expire_commits ht hres hpast]
    refine ⟨soldOf_expireCommit_exact hsm ht hres hev, ?_⟩
    rw [findTicket_expireCommit ht]
    rfl

theorem counter_matches_active_count_witness :
    soldMatches dbA
    ∧ soldMatches (cleanup_expired_tickets dbA 200).2
    ∧ soldOf (expire_ticket dbA 200 5).2 10 = some 0 :=
  ⟨by decide,
    (counter_matches_active_count dbA 200 1 10 6 5 5
      (by decide) (by decide) (by decide)).2.2.2.2,
    ((counter_matches_active_count dbA 200 1 10 6 5 5
      (by decide) (by decide) (by decide)).2.2.2.1
      { id := 5, user_id := 1, event_id := 10, status := TicketStatus.reserved,
        expires_at := some 100, paid_at := none }
      { id := 10, total_tickets := 3, tickets_sold := 1 }
      (by decide) (by decide)
      (by intro e he; injection he with h; omega)
      (by decide)).1⟩

/-- C3 (code bug): the payment path has no authorization.  The HTTP endpoint
`pay_for_ticket` declares no authentication dependency and
`mark_ticket_paid` never compares the caller with `ticket.user_id`, so the
outcome of a payment request is independent of who makes it: on `dbA`,
ticket 5 belongs to user 1, yet a request attributed to user 2 succeeds and
marks the ticket Paid — where the spec (and the repository's own test
`test_pay_for_someone_elses_ticket`) requires `Forbidden`. -/
theorem pay_has_no_ownership_check :
    ((findTicket dbA 5).map Ticket.user_id = some 1)
    ∧ (∀ caller : Nat, pay_for_ticket caller dbA 0 5 = mark_ticket_paid dbA 0 5)
    ∧ pay_for_ticket 2 dbA 0 5
        = Except.ok { dbA with
            tickets := update_status dbA.tickets 5 TicketStatus.paid (some 0) }
    ∧ (findTicket (payStep dbA 0 5) 5).map Ticket.status = some TicketStatus.paid :=
  ⟨by decide, fun _ => rfl, rfl, by decide⟩

/-- C4: ticket statuses move only along the state machine.  Reserve creates a
`reserved` ticket; pay on a located non-Reserved ticket fails with
`InvalidTransition` and the committed store is unchanged; expire on a located
non-Reserved ticket returns `skipped` with the store unchanged; a successful
pay happened on a Reserved ticket; and every ticket already in a terminal
status (Paid or Expired) survives pay, expire, the sweep, and reserve
unmodified. -/
theorem ticket_status_state_machine (db : DB) (now : Int) (uid eid ntid tid : Nat)
    (hndT : (db.tickets.map Ticket.id).Nodup) :
    (∀ db' t', reserve_ticket db now uid eid ntid = Except.ok (db', t') →
        t'.status = TicketStatus.reserved)
    ∧ (∀ t, findTicket db tid = some t → t.status ≠ TicketStatus.reserved →
        mark_ticket_paid db now tid = Except.error PayError.invalidTransition
          ∧ payStep db now tid = db)
    ∧ (∀ t, findTicket db tid = some t → t.status ≠ TicketStatus.reserved →
        expire_ticket db now tid = (ExpireOutcome.skipped, db))
    ∧ (∀ db', mark_ticket_paid db now tid = Except.ok db' →
        ∃ t, findTicket db tid = some t ∧ t.status = TicketStatus.reserved)
    ∧ (∀ x ∈ db.tickets, x.status ≠ TicketStatus.reserved →
        x ∈ (payStep db now tid).tickets
        ∧ x ∈ (expire_ticket db now tid).2.tickets
        ∧ x ∈ (cleanup_expired_tickets db now).2.tickets
        ∧ ∀ db' t', reserve_ticket db now uid eid ntid = Except.ok (db', t') →
            x ∈ db'.tickets) := by
  refine ⟨?_, ?_, ?_, ?_, ?_⟩
  · intro db' t' hok
    obtain ⟨_, _, _, _, htk, _⟩ := reserve_ok_inversion hok
    rw [htk]
    rfl
  · intro t ht hs
    exact ⟨pay_invalidTransition ht hs, payStep_of_error (pay_invalidTransition ht hs)⟩
  · intro t ht hs
    exact expire_skipped ht hs
  · intro db' hok
    obtain ⟨t, ht, hres, _, _⟩ := pay_ok_inversion hok
    exact ⟨t, ht, hres⟩
  · intro x hx hterm
    refine ⟨pay_preserves_terminal hndT hx hterm,
      expire_preserves_terminal hndT hx hterm,
      cleanup_preserves_terminal hndT hx hterm, ?_⟩
    intro db' t' hok
    obtain ⟨_, _, _, _, _, hdb⟩ := reserve_ok_inversion hok
    rw [hdb]
    exact List.mem_cons_of_mem _ hx

theorem ticket_status_state_machine_witness :
    mark_ticket_paid dbC 0 5 = Except.error PayError.invalidTransition
    ∧ expire_ticket dbC 0 5 = (ExpireOutcome.skipped, dbC) :=
  ⟨((ticket_status_state_machine dbC 0 1 10 9 5 (by decide)).2.1
      { id := 5, user_id := 1, event_id := 10, status := TicketStatus.paid,
        expires_at := some 100, paid_at := some 90 }
      (by decide) (by decide)).1,
   (ticket_status_state_machine dbC 0 1 10 9 5 (by decide)).2.2.1
      { id := 5, user_id := 1, event_id := 10, status := TicketStatus.paid,
        expires_at := some 100, paid_at := some 90 }
      (by decide) (by decide)⟩

/-- C5: expire is idempotent.  If a first call on ticket `tid` returned the
`expired` outcome with committed store `db2`, a second call on `db2` — at any
later (or any) time — returns `skipped` and the identical store: the ticket
stays Expired and no counter is touched again, so the decrement happens
exactly once across redeliveries. -/
theorem expire_idempotent_second_call {db db2 : DB} {now now2 : Int} {tid : Nat}
    (h : expire_ticket db now tid = (ExpireOutcome.expired, db2)) :
    expire_ticket db2 now2 tid = (ExpireOutcome.skipped, db2) := by
  obtain ⟨t, ht, hres, hdb2⟩ := expire_expired_inversion h
  have hfound : findTicket db2 tid = some { t with status := TicketStatus.expired } := by
    rw [hdb2]
    exact findTicket_expireCommit ht
  exact expire_skipped hfound (by simp)

theorem expire_idempotent_second_call_witness :
    expire_ticket dbA 200 5 = (ExpireOutcome.expired, dbA_afterExpire)
    ∧ expire_ticket dbA_afterExpire 999 5 = (ExpireOutcome.skipped, dbA_afterExpire) :=
  ⟨by decide, @expire_idempotent_second_call dbA dbA_afterExpire 200 999 5 (by decide)⟩

/-- C6: the pay expiry cutoff is strict.  For a located Reserved ticket with
`expires_at = some e`, `mark_ticket_paid` fails with `Expired` if and only if
`now` is strictly greater than `e`; paying at exactly `now = e` succeeds; and
`Ticket.is_expired` can only return true for a Reserved ticket, so expiry is
judged only for Reserved tickets. -/
theorem pay_expiry_cutoff_strict (db : DB) (now : Int) (tid : Nat) (t : Ticket) (e : Int)
    (ht : findTicket db tid = some t) (hres : t.status = TicketStatus.reserved)
    (he : t.expires_at = some e) :
    (mark_ticket_paid db now tid = Except.error PayError.expired ↔ e < now)
    ∧ (now = e → mark_ticket_paid db now tid
        = Except.ok { db with
            tickets := update_status db.tickets tid TicketStatus.paid (some now) })
    ∧ (∀ (u : Ticket) (n : Int), isExpired u n = true → u.status = TicketStatus.reserved) := by
  refine ⟨pay_expired_iff ht hres he, ?_, ?_⟩
  · intro hnow
    subst hnow
    have hexp : isExpired t now = false := by
      unfold isExpired
      rw [if_neg (by simp [hres, he]), he]
      simp
    unfold mark_ticket_paid
    simp only [ht]
    rw [if_neg (by simp [hres])]
    simp [hexp]
  · intro u n hu
    by_contra hne
    unfold isExpired at hu
    rw [if_pos (Or.inl hne)] at hu
    cases hu

theorem pay_expiry_cutoff_strict_witness :
    mark_ticket_paid dbA 100 5
      = Except.ok { dbA with
          tickets := update_status dbA.tickets 5 TicketStatus.paid (some 100) }
    ∧ mark_ticket_paid dbA 100 5 ≠ Except.error PayError.expired :=
  ⟨(pay_expiry_cutoff_strict dbA 100 5
      { id := 5, user_id := 1, event_id := 10, status := TicketStatus.reserved,
        expires_at := some 100, paid_at := none } 100
      (by decide) (by decide) (by decide)).2.1 rfl,
   fun hc => absurd ((pay_expiry_cutoff_strict dbA 100 5
      { id := 5, user_id := 1, event_id := 10, status := TicketStatus.reserved,
        expires_at := some 100, paid_at := none } 100
      (by decide) (by decide) (by decide)).1.mp hc) (by omega)⟩

/-- C7: the guards of the expire task.  For a located Reserved ticket: if its
`expires_at` is set and still in the future, expire returns `not_yet_expired`
and changes nothing; if `expires_at` has been reached (or is unset), the one
commit returns the `expired` outcome, sets the ticket's status to Expired and
replaces the event's counter by `max 0 (tickets_sold - 1)` — the spec's
clamped `Inventory.decrement(event_id, 1)` — in the same returned store; and
conversely the `expired` outcome only happens when `expires_at` is unset or
reached. -/
theorem expire_guard_and_commit (db : DB) (now : Int) (tid : Nat) (t : Ticket)
    (ht : findTicket db tid = some t) (hres : t.status = TicketStatus.reserved) :
    (∀ e, t.expires_at = some e → now < e →
        expire_ticket db now tid = (ExpireOutcome.notYetExpired, db))
    ∧ ((∀ e, t.expires_at = some e → e ≤ now) →
        (expire_ticket db now tid).1 = ExpireOutcome.expired
        ∧ (findTicket (expire_ticket db now tid).2 tid).map Ticket.status
            = some TicketStatus.expired
        ∧ soldOf (expire_ticket db now tid).2 t.event_id
            = (soldOf db t.event_id).map (fun s => max 0 (s - 1)))
    ∧ ((expire_ticket db now tid).1 = ExpireOutcome.expired →
        t.expires_at = none ∨ ∃ e, t.expires_at = some e ∧ e ≤ now) := by
  refine ⟨?_, ?_, ?_⟩
  · intro e he hlt
    exact expire_notYet ht hres he hlt
  · intro hpast
    rw [expire_commits ht hres hpast]
    exact ⟨rfl, by rw [findTicket_expireCommit ht]; rfl, soldOf_expireCommit⟩
  · intro hexp
    cases he : t.expires_at with
    | none => exact Or.inl rfl
    | some e =>
      by_cases hlt : now < e
      · rw [expire_notYet ht hres he hlt] at hexp
        simp at hexp
      · exact Or.inr ⟨e, rfl, le_of_not_lt hlt⟩

theorem expire_guard_and_commit_witness :
    expire_ticket dbA 50 5 = (ExpireOutcome.notYetExpired, dbA)
    ∧ (expire_ticket dbA 200 5).1 = ExpireOutcome.expired :=
  ⟨(expire_guard_and_commit dbA 50 5
      { id := 5, user_id := 1, event_id := 10, status := TicketStatus.reserved,
        expires_at := some 100, paid_at := none }
      (by decide) (by decide)).1 100 rfl (by decide),
   ((expire_guard_and_commit dbA 200 5
      { id := 5, user_id := 1, event_id := 10, status := TicketStatus.reserved,
        expires_at := some 100, paid_at := none }
      (by decide) (by decide)).2.1
      (by intro e he; injection he with h; omega)).1⟩

/-- C8: the expired-ticket query returns only Reserved tickets whose
`expires_at` is set and strictly earlier than `now`, returns at most `limit`
rows (the call sites use the default 100), and a sweep run that finds no such
ticket is a no-op that reports `expired_count = 0` and leaves the store
untouched. -/
theorem expired_query_and_empty_sweep (db : DB) (now : Int) (limit : Nat) :
    (∀ t ∈ get_expired_tickets db now limit,
        t.status = TicketStatus.reserved ∧ ∃ e, t.expires_at = some e ∧ e < now)
    ∧ (get_expired_tickets db now limit).length ≤ limit
    ∧ (get_expired_tickets db now 100 = [] →
        cleanup_expired_tickets db now = ({ expired_count := 0, event_count := 0 }, db)) :=
  ⟨fun _ ht => mem_get_expired ht, get_expired_length_le db now limit,
   fun h => cleanup_of_no_expired h⟩

theorem expired_query_and_empty_sweep_witness :
    (get_expired_tickets dbA 200 100).length ≤ 100
    ∧ cleanup_expired_tickets dbA 50 = ({ expired_count := 0, event_count := 0 }, dbA) :=
  ⟨(expired_query_and_empty_sweep dbA 200 100).2.1,
   (expired_query_and_empty_sweep dbA 50 100).2.2 (by decide)⟩

/-- C9 counterexample: one ticket's failure aborts the whole sweep batch.
In `db9` both tickets 1 and 2 are Reserved and past expiry at `now = 50`;
with a transient store fault on ticket 2, the single sweep transaction rolls
back, and ticket 1 — although eligible and processed without error — does not
reach Expired (it is still Reserved afterwards), contradicting the claim;
the same sweep without the fault does expire ticket 1. -/
theorem sweep_fault_aborts_batch :
    expiredPred 50 t9a = true ∧ t9a ∈ db9.tickets
    ∧ cleanup_expired_tickets_faulty db9 50 (fun i => i == 2) = (none, db9)
    ∧ (findTicket (cleanup_expired_tickets_faulty db9 50 (fun i => i == 2)).2 1).map
        Ticket.status = some TicketStatus.reserved
    ∧ (findTicket (cleanup_expired_tickets db9 50).2 1).map Ticket.status
        = some TicketStatus.expired :=
  ⟨by decide, by decide, by decide, by decide, by decide⟩

/-- C9 (amended): the sweep batch is one atomic transaction.  If the store
write fails for any ticket of the batch, the entire run rolls back — no
ticket of the batch (before or after the failing one) reaches Expired and no
counter is decremented; when no batch ticket fails, the run commits exactly
as `cleanup_expired_tickets`.  Isolation across tickets is provided between
runs (the rolled-back tickets are still returned by the next sweep's query),
not within a batch. -/
theorem sweep_failure_atomicity (db : DB) (now : Int) (fails : Nat → Bool) :
    ((∃ t ∈ get_expired_tickets db now 100, fails t.id = true) →
        cleanup_expired_tickets_faulty db now fails = (none, db))
    ∧ ((∀ t ∈ get_expired_tickets db now 100, fails t.id = false) →
        cleanup_expired_tickets_faulty db now fails
          = (some (cleanup_expired_tickets db now).1, (cleanup_expired_tickets db now).2)) :=
  ⟨fun h => cleanup_faulty_of_fault h, fun h => cleanup_faulty_of_no_fault h⟩

theorem sweep_failure_atomicity_witness :
    cleanup_expired_tickets_faulty db9 50 (fun i => i == 2) = (none, db9) :=
  (sweep_failure_atomicity db9 50 (fun i => i == 2)).1
    ⟨{ id := 2, user_id := 1, event_id := 20, status := TicketStatus.reserved,
       expires_at := some 10, paid_at := none }, by decide, by decide⟩

/-- C10: a missing event row is silently tolerated by the expire task.  For a
located Reserved ticket past its expiry whose event id matches no event row,
the task still returns the `expired` outcome and sets the ticket's status to
Expired, while performing no counter decrement (the events table is exactly
the one before the call). -/
theorem expire_missing_event_tolerated (db : DB) (now : Int) (tid : Nat) (t : Ticket) (e : Int)
    (ht : findTicket db tid = some t) (hres : t.status = TicketStatus.reserved)
    (he : t.expires_at = some e) (hpast : e ≤ now)
    (hev : findEvent db t.event_id = none) :
    (expire_ticket db now tid).1 = ExpireOutcome.expired
    ∧ (expire_ticket db now tid).2.events = db.events
    ∧ (findTicket (expire_ticket db now tid).2 tid).map Ticket.status
        = some TicketStatus.expired := by
  have hpast' : ∀ e', t.expires_at = some e' → e' ≤ now := by
    intro e' he'
    rw [he] at he'
    injection he' with h
    omega
  rw [expire_commits ht hres hpast']
  exact ⟨rfl, expireCommit_events_none hev, by rw [findTicket_expireCommit ht]; rfl⟩

theorem expire_missing_event_tolerated_witness :
    (expire_ticket db10 50 3).1 = ExpireOutcome.expired
    ∧ (expire_ticket db10 50 3).2.events = db10.events :=
  ⟨(expire_missing_event_tolerated db10 50 3
      { id := 3, user_id := 1, event_id := 99, status := TicketStatus.reserved,
        expires_at := some 10, paid_at := none } 10
      (by decide) (by decide) (by decide) (by decide) (by decide)).1,
   (expire_missing_event_tolerated db10 50 3
      { id := 3, user_id := 1, event_id := 99, status := TicketStatus.reserved,
        expires_at := some 10, paid_at := none } 10
      (by decide) (by decide) (by decide) (by decide) (by decide)).2.1⟩

end NearbyTix
